import Mathlib

/-!
Verification of the concurrent TCP port sniffer (src/src/main.rs).

Shallow embedding conventions:
* Ports are `Nat` (Rust `u16` values are below `2 ^ 16`; guards keep the bounds).
* The network environment is a pure function `net : α → Nat → Bool`, where
  `net addr p = true` means a TCP connect to `(addr, p)` succeeds at scan time.
  The address type `α` is abstract (the Rust code uses `IpAddr`).
* The async `scan` task body is a pure function returning the progress output
  it prints and the optional value it sends on the channel.
* The concurrent part of `main` (spawning one task per port, the mpsc channel,
  the drain loop) is a small-step relation `Step` on `ChanState`; the arrival
  order of channel values is therefore nondeterministic, and theorems quantify
  over any arrival list that is a permutation of the sent values.
-/

namespace PortSniffer

/-- `const MAX: u16 = 65535` from main.rs. -/
def MAX : Nat := 65535

/-- `start_port_guard` from main.rs: `*input > 0`. -/
def start_port_guard (input : Nat) : Bool := decide (0 < input)

/-- `end_port_guard` from main.rs: `*input <= MAX`. -/
def end_port_guard (input : Nat) : Bool := decide (input ≤ MAX)

/-- The `Arguments` struct from main.rs (the spec's `ScanRequest`):
an address plus the port range bounds. -/
structure Arguments (α : Type) where
  address : α
  start_port : Nat
  end_port : Nat

/-- A valid request: the ports are `u16` values and both bpaf guards accept,
i.e. `start_port > 0` and `end_port <= 65535`. -/
def validArguments {α : Type} (a : Arguments α) : Prop :=
  a.start_port < 2 ^ 16 ∧ a.end_port < 2 ^ 16 ∧
    start_port_guard a.start_port = true ∧ end_port_guard a.end_port = true

/-- The async `scan` function from main.rs, for one port.
`TcpStream::connect` succeeding is modelled by `net addr start_port = true`;
on success the task prints `"."` (flushed) and sends `start_port` on the
channel; on failure (`Err(_) => {}`) it prints nothing and sends nothing.
Returns `(progress output, sent value)`. -/
def scan {α : Type} (net : α → Nat → Bool) (addr : α) (start_port : Nat) :
    List String × Option Nat :=
  if net addr start_port = true then (["."], some start_port) else ([], none)

/-- The ports probed by `main`: the Rust iteration
`for i in opts.start_port..opts.end_port` over the half-open range. -/
def portRange (s e : Nat) : List Nat := List.range' s (e - s)

/-- The values sent into the channel by the probes for the ports in `l`. -/
def sentOf {α : Type} (net : α → Nat → Bool) (addr : α) (l : List Nat) :
    List Nat :=
  l.filterMap (fun p => (scan net addr p).2)

/-- All values sent into the channel during a scan of `[s, e)`. -/
def sentPorts {α : Type} (net : α → Nat → Bool) (addr : α) (s e : Nat) :
    List Nat :=
  sentOf net addr (portRange s e)

/-- `out.sort()` from main.rs: ascending sort of the collected ports. -/
def sortPorts (l : List Nat) : List Nat := List.insertionSort (· ≤ ·) l

/-- The final `ScanResult`: `main` collects the arrived values into `out`
and sorts them ascending. -/
def mainResult (arrival : List Nat) : List Nat := sortPorts arrival

/-- The per-port lines `println!("{} is open", v)` printed at the end of
`main`, one per entry of the sorted result. -/
def portLines (sorted : List Nat) : List String :=
  sorted.map (fun v => toString v ++ " is open")

/-- State of the channel/task system in `main` after the spawn loop:
`pending` are ports whose probe task has not yet finished (each holds a
clone of `tx`; `main`'s own `tx` is already dropped), `buffer` the values
sent but not yet received (FIFO), `drained` the values the `for p in rx`
loop has received, `closed` whether that loop has ended. -/
structure ChanState where
  pending : List Nat
  buffer : List Nat
  drained : List Nat
  closed : Bool
  deriving DecidableEq, Repr

/-- Small-step semantics of the concurrent part of `main`:
* `probe`: any pending task runs to completion, appending its sent value (if
  any) to the channel buffer and dropping its `tx` clone;
* `recv`: the drain loop receives the oldest buffered value;
* `close`: `recv` returns `Err(Disconnected)` — possible only once every
  sender is dropped (no pending task) and the buffer is empty — ending the
  drain loop. -/
inductive Step {α : Type} (net : α → Nat → Bool) (addr : α) :
    ChanState → ChanState → Prop where
  | probe (pre post buf dr : List Nat) (p : Nat) :
      Step net addr
        ⟨pre ++ p :: post, buf, dr, false⟩
        ⟨pre ++ post, buf ++ (scan net addr p).2.toList, dr, false⟩
  | recv (pend buf dr : List Nat) (v : Nat) :
      Step net addr ⟨pend, v :: buf, dr, false⟩ ⟨pend, buf, dr ++ [v], false⟩
  | close (dr : List Nat) :
      Step net addr ⟨[], [], dr, false⟩ ⟨[], [], dr, true⟩

/-- Reachability in zero or more steps. -/
def Reaches {α : Type} (net : α → Nat → Bool) (addr : α) :
    ChanState → ChanState → Prop :=
  Relation.ReflTransGen (Step net addr)

/-- Initial state of a scan of `[s, e)`: one spawned probe per port in the
range, empty channel, drain loop not yet ended. -/
def initState (s e : Nat) : ChanState := ⟨portRange s e, [], [], false⟩

theorem mem_portRange {s e p : Nat} : p ∈ portRange s e ↔ s ≤ p ∧ p < e := by
  simp only [portRange, List.mem_range'_1]
  omega

theorem nodup_portRange (s e : Nat) : (portRange s e).Nodup :=
  List.nodup_range' s (e - s)

theorem scan_snd_eq {α : Type} (net : α → Nat → Bool) (addr : α) (p : Nat) :
    (scan net addr p).2 = if net addr p = true then some p else none := by
  by_cases h : net addr p = true <;> simp [scan, h]

theorem mem_sentOf {α : Type} {net : α → Nat → Bool} {addr : α}
    {l : List Nat} {p : Nat} :
    p ∈ sentOf net addr l ↔ p ∈ l ∧ net addr p = true := by
  simp only [sentOf, List.mem_filterMap]
  constructor
  · rintro ⟨q, hq, hsc⟩
    rw [scan_snd_eq] at hsc
    by_cases h : net addr q = true
    · simp only [h, if_pos] at hsc
      cases hsc
      exact ⟨hq, h⟩
    · simp [h] at hsc
  · rintro ⟨hp, hopen⟩
    exact ⟨p, hp, by rw [scan_snd_eq, if_pos hopen]⟩

theorem mem_sentPorts {α : Type} {net : α → Nat → Bool} {addr : α}
    {s e p : Nat} :
    p ∈ sentPorts net addr s e ↔ (s ≤ p ∧ p < e) ∧ net addr p = true := by
  rw [sentPorts, mem_sentOf, mem_portRange]

theorem sentOf_sublist {α : Type} (net : α → Nat → Bool) (addr : α) :
    ∀ l : List Nat, List.Sublist (sentOf net addr l) l := by
  intro l
  induction l with
  | nil => simp [sentOf]
  | cons q l ih =>
    rw [sentOf, List.filterMap_cons, scan_snd_eq]
    by_cases h : net addr q = true
    · simp only [h, if_pos]
      exact List.Sublist.cons₂ q ih
    · simp only [h, if_neg, Bool.false_eq_true, not_false_iff]
      exact List.Sublist.cons q ih

theorem nodup_sentPorts {α : Type} (net : α → Nat → Bool) (addr : α)
    (s e : Nat) : (sentPorts net addr s e).Nodup :=
  (nodup_portRange s e).sublist (sentOf_sublist net addr (portRange s e))

theorem sortPorts_perm (l : List Nat) : (sortPorts l).Perm l :=
  List.perm_insertionSort _ l

theorem sortPorts_sorted (l : List Nat) : (sortPorts l).Sorted (· ≤ ·) :=
  List.sorted_insertionSort _ l

theorem mem_sortPorts {l : List Nat} {p : Nat} :
    p ∈ sortPorts l ↔ p ∈ l :=
  (sortPorts_perm l).mem_iff

theorem sentOf_nil {α : Type} (net : α → Nat → Bool) (addr : α) :
    sentOf net addr [] = [] := rfl

theorem sentOf_cons {α : Type} (net : α → Nat → Bool) (addr : α) (p : Nat)
    (l : List Nat) :
    sentOf net addr (p :: l) =
      (scan net addr p).2.toList ++ sentOf net addr l := by
  rw [sentOf, List.filterMap_cons]
  cases h : (scan net addr p).2 <;> simp [sentOf, h]

theorem sentOf_append {α : Type} (net : α → Nat → Bool) (addr : α)
    (l₁ l₂ : List Nat) :
    sentOf net addr (l₁ ++ l₂) = sentOf net addr l₁ ++ sentOf net addr l₂ :=
  List.filterMap_append l₁ l₂ _

/-- Execution invariant of the channel system: the values already drained,
the values still buffered, and the values the pending probes will send
together form exactly the multiset of all sent values for the scanned range;
and once the drain loop has ended, no probe is pending and the buffer is
empty. -/
theorem reaches_invariant {α : Type} {net : α → Nat → Bool} {addr : α}
    {s e : Nat} {σ : ChanState}
    (h : Reaches net addr (initState s e) σ) :
    ((σ.drained : Multiset Nat) + (σ.buffer : Multiset Nat) +
        (sentOf net addr σ.pending : Multiset Nat) =
      (sentPorts net addr s e : Multiset Nat)) ∧
    (σ.closed = true → σ.pending = [] ∧ σ.buffer = []) := by
  induction h with
  | refl =>
    refine ⟨?_, by simp [initState]⟩
    simp [initState, sentPorts]
  | tail hr hstep ih =>
    cases hstep with
    | probe pre post buf dr p =>
      refine ⟨?_, by simp⟩
      rw [← ih.1]
      simp only [sentOf_append, sentOf_cons, ← Multiset.coe_add]
      abel
    | recv pend buf dr v =>
      refine ⟨?_, by simp⟩
      rw [← ih.1]
      have hvb : (v :: buf : List Nat) = [v] ++ buf := rfl
      rw [hvb]
      simp only [← Multiset.coe_add]
      abel
    | close dr =>
      exact ⟨by simpa using ih.1, fun _ => ⟨rfl, rfl⟩⟩

theorem drained_perm_of_closed {α : Type} {net : α → Nat → Bool} {addr : α}
    {s e : Nat} {σ : ChanState}
    (h : Reaches net addr (initState s e) σ) (hc : σ.closed = true) :
    σ.pending = [] ∧ σ.buffer = [] ∧
      σ.drained.Perm (sentPorts net addr s e) := by
  obtain ⟨hinv, himp⟩ := reaches_invariant h
  obtain ⟨hp, hb⟩ := himp hc
  refine ⟨hp, hb, ?_⟩
  rw [hp, hb] at hinv
  simp only [sentOf_nil, Multiset.coe_nil, add_zero] at hinv
  exact Multiset.coe_eq_coe.mp hinv

/-- If every pending port is closed, the system runs every probe (each sends
nothing), then the drain loop ends: the scan completes normally with nothing
drained. -/
theorem reaches_close_of_all_closed {α : Type} (net : α → Nat → Bool)
    (addr : α) :
    ∀ pend : List Nat, (∀ p ∈ pend, net addr p = false) →
      Reaches net addr ⟨pend, [], [], false⟩ ⟨[], [], [], true⟩ := by
  intro pend
  induction pend with
  | nil =>
    intro _
    exact Relation.ReflTransGen.single (Step.close [])
  | cons q rest ih =>
    intro hall
    have hq : net addr q = false := hall q (List.mem_cons_self q rest)
    have hstep : Step net addr ⟨q :: rest, [], [], false⟩
        ⟨rest, [], [], false⟩ := by
      have h0 := @Step.probe α net addr [] rest [] [] q
      simp only [List.nil_append] at h0
      have h1 : (scan net addr q).2.toList = [] := by
        rw [scan_snd_eq, hq]
        simp
      rwa [h1] at h0
    exact Relation.ReflTransGen.head hstep
      (ih fun p hp => hall p (List.mem_cons_of_mem q hp))

theorem sentPorts_eq_nil_of_all_closed {α : Type} {net : α → Nat → Bool}
    {addr : α} {s e : Nat}
    (hclosed : ∀ p, s ≤ p → p < e → net addr p = false) :
    sentPorts net addr s e = [] := by
  rw [List.eq_nil_iff_forall_not_mem]
  intro p hp
  rw [mem_sentPorts] at hp
  have := hclosed p hp.1.1 hp.1.2
  rw [this] at hp
  exact Bool.false_ne_true hp.2

/-- The progress characters printed by the probes, in the (nondeterministic)
order `order` in which the probe tasks happened to run. -/
def progressOf {α : Type} (net : α → Nat → Bool) (addr : α)
    (order : List Nat) : List String :=
  order.flatMap (fun p => (scan net addr p).1)

theorem progressOf_length_eq_sentOf {α : Type} (net : α → Nat → Bool)
    (addr : α) : ∀ l : List Nat,
    (progressOf net addr l).length = (sentOf net addr l).length := by
  intro l
  induction l with
  | nil => rfl
  | cons q rest ih =>
    by_cases h : net addr q = true <;>
      simp [progressOf, sentOf, List.filterMap_cons, scan, h] <;>
      simpa [progressOf, sentOf] using ih

theorem sorted_lt_of_sorted_le_nodup {l : List Nat}
    (hs : l.Sorted (· ≤ ·)) (hn : l.Nodup) : l.Sorted (· < ·) :=
  List.Pairwise.imp₂ (fun _ _ hle hne => lt_of_le_of_ne hle hne) hs hn

/-- Concrete network environment for witnesses: on any address, exactly
port 2 accepts a TCP connection. -/
def netOpen2 (_addr : String) (p : Nat) : Bool := p == 2

/-- Concrete network environment for witnesses: every port is closed. -/
def netClosed (_addr : String) (_p : Nat) : Bool := false

/-- C1: for every valid `ScanRequest` (`Arguments`) and every port `p`, `p`
appears in the final `ScanResult` iff `start_port ≤ p < end_port` and the
probe's TCP connect to `(address, p)` succeeded; a port whose connect fails
produces no record at all (the probe sends nothing). -/
theorem result_mem_iff_open_in_range {α : Type} (net : α → Nat → Bool)
    (a : Arguments α) (arrival : List Nat) (p : Nat)
    (hv : validArguments a)
    (harr : arrival.Perm (sentPorts net a.address a.start_port a.end_port)) :
    (p ∈ mainResult arrival ↔
      (a.start_port ≤ p ∧ p < a.end_port) ∧ net a.address p = true) ∧
    (net a.address p = false → (scan net a.address p).2 = none) := by
  constructor
  · rw [mainResult, mem_sortPorts, harr.mem_iff, mem_sentPorts]
  · intro h
    rw [scan_snd_eq, h]
    simp

/-- Witness for C1 at `netOpen2`, range `[1, 4)`, port `2`. -/
theorem result_mem_iff_open_in_range_witness :
    (2 ∈ mainResult [2] ↔ (1 ≤ 2 ∧ 2 < 4) ∧ netOpen2 "127.0.0.1" 2 = true) ∧
    (netOpen2 "127.0.0.1" 2 = false →
      (scan netOpen2 "127.0.0.1" 2).2 = none) :=
  result_mem_iff_open_in_range netOpen2 ⟨"127.0.0.1", 1, 4⟩ [2] 2
    (by refine ⟨by decide, by decide, by decide, by decide⟩) (by decide)

/-- C2: for every valid request with `start_port < end_port`, the returned
sequence is strictly ascending and has no duplicates. -/
theorem result_strictly_ascending_nodup {α : Type} (net : α → Nat → Bool)
    (a : Arguments α) (arrival : List Nat)
    (hv : validArguments a) (hlt : a.start_port < a.end_port)
    (harr : arrival.Perm (sentPorts net a.address a.start_port a.end_port)) :
    (mainResult arrival).Sorted (· < ·) ∧ (mainResult arrival).Nodup := by
  have hnd : (mainResult arrival).Nodup :=
    (((sortPorts_perm arrival).trans harr).symm).nodup
      (nodup_sentPorts net a.address a.start_port a.end_port)
  exact ⟨sorted_lt_of_sorted_le_nodup (sortPorts_sorted arrival) hnd, hnd⟩

/-- Witness for C2 at `netOpen2`, range `[1, 4)`, arrival `[2]`. -/
theorem result_strictly_ascending_nodup_witness :
    (mainResult [2]).Sorted (· < ·) ∧ (mainResult [2]).Nodup :=
  result_strictly_ascending_nodup netOpen2 ⟨"127.0.0.1", 1, 4⟩ [2]
    (by refine ⟨by decide, by decide, by decide, by decide⟩) (by decide)
    (by decide)

/-- C3: exactly the ports of the half-open range `[start_port, end_port)`
are probed, once each; `end_port` itself is never probed, and a listener at
exactly `end_port` never appears in the result. -/
theorem probed_exactly_half_open_range {α : Type} (net : α → Nat → Bool)
    (a : Arguments α) (arrival : List Nat)
    (harr : arrival.Perm (sentPorts net a.address a.start_port a.end_port)) :
    (∀ p, p ∈ portRange a.start_port a.end_port ↔
      a.start_port ≤ p ∧ p < a.end_port) ∧
    (portRange a.start_port a.end_port).Nodup ∧
    a.end_port ∉ portRange a.start_port a.end_port ∧
    a.end_port ∉ mainResult arrival := by
  refine ⟨fun p => mem_portRange, nodup_portRange _ _, ?_, ?_⟩
  · rw [mem_portRange]
    omega
  · rw [mainResult, mem_sortPorts, harr.mem_iff, mem_sentPorts]
    rintro ⟨⟨-, hlt⟩, -⟩
    omega

/-- Witness for C3 at `netOpen2`, range `[1, 4)`, arrival `[2]`. -/
theorem probed_exactly_half_open_range_witness :
    (∀ p, p ∈ portRange 1 4 ↔ 1 ≤ p ∧ p < 4) ∧
    (portRange 1 4).Nodup ∧
    4 ∉ portRange 1 4 ∧
    4 ∉ mainResult [2] :=
  probed_exactly_half_open_range netOpen2 ⟨"127.0.0.1", 1, 4⟩ [2] (by decide)

/-- C4: whenever the drain loop has ended, every launched probe has already
terminated, and the values drained by the single consumer are exactly (as a
multiset, i.e. no loss and no duplication) the values written by the probes,
in whatever order the probes completed. -/
theorem drain_after_all_probes_exactly_once {α : Type} (net : α → Nat → Bool)
    (a : Arguments α) (σ : ChanState)
    (h : Reaches net a.address (initState a.start_port a.end_port) σ)
    (hc : σ.closed = true) :
    σ.pending = [] ∧
      σ.drained.Perm (sentPorts net a.address a.start_port a.end_port) := by
  obtain ⟨hp, -, hperm⟩ := drained_perm_of_closed h hc
  exact ⟨hp, hperm⟩

/-- Witness for C4: the all-closed network over `[1, 3)` reaches the final
closed state with nothing drained. -/
theorem drain_after_all_probes_exactly_once_witness :
    (⟨[], [], [], true⟩ : ChanState).pending = [] ∧
      (⟨[], [], [], true⟩ : ChanState).drained.Perm
        (sentPorts netClosed "127.0.0.1" 1 3) :=
  drain_after_all_probes_exactly_once netClosed ⟨"127.0.0.1", 1, 3⟩
    ⟨[], [], [], true⟩
    (reaches_close_of_all_closed netClosed "127.0.0.1" (portRange 1 3)
      (by decide))
    rfl

/-- C5: a degenerate request with `start_port ≥ end_port` launches no
probes, sends nothing, and yields an empty result with no port lines — not
an error. -/
theorem degenerate_range_empty_result {α : Type} (net : α → Nat → Bool)
    (a : Arguments α) (arrival : List Nat)
    (hd : a.end_port ≤ a.start_port)
    (harr : arrival.Perm (sentPorts net a.address a.start_port a.end_port)) :
    portRange a.start_port a.end_port = [] ∧
    sentPorts net a.address a.start_port a.end_port = [] ∧
    mainResult arrival = [] ∧
    portLines (mainResult arrival) = [] := by
  have hpr : portRange a.start_port a.end_port = [] := by
    rw [portRange, Nat.sub_eq_zero_of_le hd]
    rfl
  have hsent : sentPorts net a.address a.start_port a.end_port = [] := by
    rw [sentPorts, hpr]
    rfl
  have harr0 : arrival = [] := by
    rw [hsent] at harr
    exact harr.eq_nil
  rw [harr0]
  exact ⟨hpr, hsent, rfl, rfl⟩

/-- Witness for C5 at the degenerate range `[5, 5)`. -/
theorem degenerate_range_empty_result_witness :
    portRange 5 5 = [] ∧
    sentPorts netOpen2 "127.0.0.1" 5 5 = [] ∧
    mainResult [] = [] ∧
    portLines (mainResult []) = [] :=
  degenerate_range_empty_result netOpen2 ⟨"127.0.0.1", 5, 5⟩ []
    (by decide) (by decide)

/-- C6: a failed connect makes the probe print nothing and send nothing
(the failure is absorbed locally, `Err(_) => {}`); it never aborts the
scan: with every port of the range closed, the system still runs to the
normal final state, and the result drained there is the empty sequence. -/
theorem probe_failure_absorbed_scan_completes {α : Type}
    (net : α → Nat → Bool) (a : Arguments α)
    (hclosed : ∀ p, a.start_port ≤ p → p < a.end_port →
      net a.address p = false) :
    (∀ p, net a.address p = false → scan net a.address p = ([], none)) ∧
    Reaches net a.address (initState a.start_port a.end_port)
      ⟨[], [], [], true⟩ ∧
    (∀ σ, Reaches net a.address (initState a.start_port a.end_port) σ →
      σ.closed = true → mainResult σ.drained = []) := by
  have hsent : sentPorts net a.address a.start_port a.end_port = [] :=
    sentPorts_eq_nil_of_all_closed hclosed
  refine ⟨?_, ?_, ?_⟩
  · intro p hp
    rw [scan, hp]
    simp
  · exact reaches_close_of_all_closed net a.address _ fun p hp => by
      rw [mem_portRange] at hp
      exact hclosed p hp.1 hp.2
  · intro σ hσ hc
    obtain ⟨-, -, hperm⟩ := drained_perm_of_closed hσ hc
    rw [hsent] at hperm
    rw [mainResult, hperm.eq_nil]
    rfl

/-- Witness for C6: the all-closed network over `[1, 3)`. -/
theorem probe_failure_absorbed_scan_completes_witness :
    (∀ p, netClosed "127.0.0.1" p = false →
      scan netClosed "127.0.0.1" p = ([], none)) ∧
    Reaches netClosed "127.0.0.1" (initState 1 3) ⟨[], [], [], true⟩ ∧
    (∀ σ, Reaches netClosed "127.0.0.1" (initState 1 3) σ →
      σ.closed = true → mainResult σ.drained = []) :=
  probe_failure_absorbed_scan_completes netClosed ⟨"127.0.0.1", 1, 3⟩
    (by decide)

/-- C7: determinism — two runs over the same address and range against a
network whose open set is unchanged yield the same final sorted sequence,
whatever the two arrival orders were. -/
theorem scan_deterministic_under_stable_target {α : Type}
    (net : α → Nat → Bool) (a : Arguments α) (arrival₁ arrival₂ : List Nat)
    (h₁ : arrival₁.Perm (sentPorts net a.address a.start_port a.end_port))
    (h₂ : arrival₂.Perm (sentPorts net a.address a.start_port a.end_port)) :
    mainResult arrival₁ = mainResult arrival₂ :=
  List.eq_of_perm_of_sorted
    (((sortPorts_perm arrival₁).trans (h₁.trans h₂.symm)).trans
      (sortPorts_perm arrival₂).symm)
    (sortPorts_sorted arrival₁) (sortPorts_sorted arrival₂)

/-- Witness for C7: two different arrival orders of the same sent values. -/
theorem scan_deterministic_under_stable_target_witness :
    mainResult [3, 2] = mainResult [2, 3] :=
  scan_deterministic_under_stable_target
    (fun (_ : String) p => p == 2 || p == 3) ⟨"127.0.0.1", 1, 4⟩
    [3, 2] [2, 3] (by decide) (by decide)

/-- C8: during the scan exactly one progress character — a `"."` — is
printed (and flushed) per open port, whatever order the probes ran in;
after completion `main` prints one line per open port of the sorted result,
in ascending order, of the form `"<port> is open"`, and no port line when
no port is open. -/
theorem output_progress_and_port_lines {α : Type} (net : α → Nat → Bool)
    (a : Arguments α) (order arrival : List Nat)
    (horder : order.Perm (portRange a.start_port a.end_port))
    (harr : arrival.Perm (sentPorts net a.address a.start_port a.end_port)) :
    (∀ c ∈ progressOf net a.address order, c = ".") ∧
    (progressOf net a.address order).length =
      (sentPorts net a.address a.start_port a.end_port).length ∧
    portLines (mainResult arrival) =
      (mainResult arrival).map (fun v => toString v ++ " is open") ∧
    (mainResult arrival).Sorted (· ≤ ·) ∧
    (sentPorts net a.address a.start_port a.end_port = [] →
      portLines (mainResult arrival) = []) := by
  refine ⟨?_, ?_, rfl, sortPorts_sorted arrival, ?_⟩
  · intro c hc
    rw [progressOf, List.mem_flatMap] at hc
    obtain ⟨p, -, hcp⟩ := hc
    by_cases h : net a.address p = true <;> rw [scan] at hcp <;>
      simp [h] at hcp
    exact hcp
  · have hperm : (progressOf net a.address order).Perm
        (progressOf net a.address (portRange a.start_port a.end_port)) :=
      List.Perm.flatMap_right _ horder
    rw [hperm.length_eq, progressOf_length_eq_sentOf]
    rfl
  · intro hsent
    rw [hsent] at harr
    rw [mainResult, harr.eq_nil]
    rfl

/-- Witness for C8 at `netOpen2`, range `[1, 4)`, run order `[3, 1, 2]`,
arrival `[2]`. -/
theorem output_progress_and_port_lines_witness :
    (∀ c ∈ progressOf netOpen2 "127.0.0.1" [3, 1, 2], c = ".") ∧
    (progressOf netOpen2 "127.0.0.1" [3, 1, 2]).length =
      (sentPorts netOpen2 "127.0.0.1" 1 4).length ∧
    portLines (mainResult [2]) =
      (mainResult [2]).map (fun v => toString v ++ " is open") ∧
    (mainResult [2]).Sorted (· ≤ ·) ∧
    (sentPorts netOpen2 "127.0.0.1" 1 4 = [] →
      portLines (mainResult [2]) = []) :=
  output_progress_and_port_lines netOpen2 ⟨"127.0.0.1", 1, 4⟩ [3, 1, 2] [2]
    (by decide) (by decide)

/-- C9: the `tx.send(start_port).unwrap()` in a probe never panics: in any
reachable state in which some probe has not yet finished (so a send may
still happen), the drain loop has not ended — the receiving end is still
alive, and the `probe` transition always succeeds in appending its value to
the channel buffer. -/
theorem send_never_panics {α : Type} (net : α → Nat → Bool)
    (a : Arguments α) (σ : ChanState)
    (h : Reaches net a.address (initState a.start_port a.end_port) σ)
    (hp : σ.pending ≠ []) : σ.closed = false := by
  cases hc : σ.closed with
  | false => rfl
  | true => exact absurd ((reaches_invariant h).2 hc).1 hp

/-- Witness for C9: the initial state of a scan of `[1, 3)` has pending
probes and its drain loop has not ended. -/
theorem send_never_panics_witness : (initState 1 3).closed = false :=
  send_never_panics netClosed ⟨"127.0.0.1", 1, 3⟩ (initState 1 3)
    Relation.ReflTransGen.refl (by decide)

/-- C10: under accepted validation (`end_port_guard`), no probed port
exceeds 65534, and port 65535 is never probed — in particular not with the
default arguments `start_port = 1`, `end_port = MAX`. -/
theorem no_port_above_65534_probed (s e : Nat)
    (hs : start_port_guard s = true) (he : end_port_guard e = true) :
    (∀ p ∈ portRange s e, p ≤ 65534) ∧
    65535 ∉ portRange s e ∧
    65535 ∉ portRange 1 MAX := by
  rw [end_port_guard, decide_eq_true_iff] at he
  have hb : ∀ p ∈ portRange s e, p ≤ 65534 := by
    intro p hp
    rw [mem_portRange] at hp
    have : p < MAX := lt_of_lt_of_le hp.2 he
    rw [MAX] at this
    omega
  refine ⟨hb, fun hmem => by have := hb 65535 hmem; omega, fun hmem => ?_⟩
  rw [mem_portRange, MAX] at hmem
  omega

/-- Witness for C10 at the default arguments `s = 1`, `e = MAX = 65535`. -/
theorem no_port_above_65534_probed_witness :
    (∀ p ∈ portRange 1 65535, p ≤ 65534) ∧
    65535 ∉ portRange 1 65535 ∧
    65535 ∉ portRange 1 MAX :=
  no_port_above_65534_probed 1 65535 (by decide) (by decide)

end PortSniffer
